import Mathlib

/-!
Shallow embedding of the iterative research orchestration engine
(src/orchestrator.ts, src/resultProcessor.ts, src/queryOptimizer.ts,
src/toolManager.ts, src/types.ts).

Modelling conventions:
* External dependencies (the reasoning service / LLM, tool `execute`
  calls) are modelled as oracle functions in an `Env` structure.  A call
  that throws, or whose reply fails `JSON.parse` (equivalently fails the
  zod schema in the resultProcessor variants), is `none` / `.throw`; a
  call that yields a parsed value is `some`-valued.  Control flow around
  each call site is translated from the source.
* JavaScript regex primitives (`String.prototype.match` counts,
  `RegExp.prototype.test`, `split(...).length`) are abstracted as a
  `StringOps` parameter: each named pattern of the source is a
  constructor of `Pat`, and the theorems quantify over every possible
  behaviour of the regex engine (only `split` returning a non-empty
  array — a JS guarantee — is recorded as a field).
* JS numbers are modelled as exact rationals `ℚ`; falsy-checks on
  strings/numbers (`x || d`) are translated explicitly.
* The module-level `tools` registry of tools.ts is passed as a
  `registry : List ToolCard` parameter; no claim depends on the concrete
  catalog contents.
* Wall-clock fields (`executionTime`, backoff delays) and the
  result-metadata mutation done purely for observability
  (`confidenceCalculation`, per the spec "must not be relied on by
  downstream logic") are not modelled.
-/

namespace Research

/-- Named regex patterns appearing in the source. -/
inductive Pat where
  /-- `/(https?:\/\/[^\s]+)/g` (queryOptimizer.extractUrls) -/
  | urlPattern
  /-- YouTube link pattern (queryOptimizer.extractYouTubeUrls) -/
  | youtubePattern
  /-- `/\[(\d+(?:,\s*\d+)*)\]/g` -/
  | citeNumeric
  /-- `/\[([a-zA-Z][^[\]]*)\]/g` -/
  | citeAuthorYear
  /-- `/\(([^()]*\d{4}[^()]*)\)/g` -/
  | citeParenYear
  /-- `/\[Source\]/g` -/
  | citeSourceTag
  /-- `/\[\d+\]:/g` -/
  | citeBibliography
  /-- `/(?:^|\n)###?\s*Introduction/i` -/
  | secIntro
  /-- `/(?:^|\n)###?\s*Conclusion/i` -/
  | secConcl
  /-- `/(?:^|\n)###?\s*(?:Citations|References):/i` -/
  | secCiteHeader
  /-- `/(?:^|\n)###?\s+[^#\n]+/g` -/
  | sectionHeadings
  /-- `/\*\*[^*]+\*\*/g` -/
  | boldSpan
  /-- `/(?:^|\n)\s*[-*]\s+|\d+\.\s+/m` -/
  | listMarkers
  /-- `/(?:^|\n)#{1,3}\s+[^#\n]+/g` -/
  | headingLines
  /-- `/\n\n+/` (used with `split`) -/
  | paragraphBreak
  /-- `/\s+/` (used with `split`) -/
  | whitespaceSplit
  /-- `/(#{1,3}\s*$|\*\*\s*\*\*)/m` -/
  | inconsistentFmt
  /-- `/(?:^|\n)###?\s+[^#\n]{10,}/g` -/
  | meaningfulHeadings
  /-- `/compar|versus|vs\.|better|worse|differ/i` -/
  | covComparison
  /-- `/\b(is|are|was|were|fact|specifically)\b/i` -/
  | covFactual
  /-- `/\b(because|therefore|thus|hence|explain|reason)\b/i` -/
  | covExplanation
  /-- `/\b(step|guide|how to|process|method)\b/i` -/
  | covHowto
  /-- `/\b(recommend|suggest|believe|opinion|consider)\b/i` -/
  | covOpinion

/-- Abstraction of the JS string/regex primitives the source uses.
`countMatches p s` is `(s.match(p) || []).length`, `testPat p s` is
`p.test(s)`, `splitCount p s` is `s.split(p).length`, `matchList p s` is
`s.match(p) || []`, and `includesLower a b` is
`a.toLowerCase().includes(b.toLowerCase())`.  `splitCount_pos` records
the JS guarantee that `split` returns at least one element. -/
structure StringOps where
  countMatches : Pat → String → Nat
  testPat : Pat → String → Bool
  splitCount : Pat → String → Nat
  matchList : Pat → String → List String
  includesLower : String → String → Bool
  splitCount_pos : ∀ p s, 0 < splitCount p s

/-- JS `a || b` for a possibly-absent string `a` (empty string is falsy). -/
def jsStrOr (o : Option String) (d : String) : String :=
  match o with
  | some s => if s = "" then d else s
  | none => d

/-- JS `a || b` for a possibly-absent number `a` (0 is falsy). -/
def jsNumOr (o : Option ℚ) (d : ℚ) : ℚ :=
  match o with
  | some q => if q = 0 then d else q
  | none => d

/-- JS truthiness of a possibly-absent string value. -/
def optTruthy : Option String → Bool
  | some s => s != ""
  | none => false

/-- Keep a string value only when truthy (models `x || undefined` and
`filter(Boolean)` on string fields). -/
def strTruthyOpt : Option String → Option String
  | some s => if s = "" then none else some s
  | none => none

/-- JS `a || b` where both sides are possibly-absent strings
(`item.title || item.url`). -/
def jsOrOpt (a b : Option String) : Option String :=
  if optTruthy a then a else b

/-- `forEach`-style indexing: pairs each element with its index,
starting at `start` (used where the source iterates with an index). -/
def withIdx (start : Nat) : List α → List (Nat × α)
  | [] => []
  | x :: xs => (start, x) :: withIdx (start + 1) xs

/-- Stable insertion: `x` is placed after exactly those `y` that must
come strictly before it (`lt y x`), so an element tied with `x` that
preceded it in the input stays before it (models the spec-mandated
stable `Array.prototype.sort` with a strict comparator: `lt a b` holds
when the comparator orders `a` strictly before `b`). -/
def insertBy (lt : α → α → Bool) (x : α) : List α → List α
  | [] => [x]
  | y :: ys => if lt y x then y :: insertBy lt x ys else x :: y :: ys

/-- Stable sort by a strict comparator (JS `sort` is stable). -/
def sortBy (lt : α → α → Bool) : List α → List α
  | [] => []
  | x :: xs => insertBy lt x (sortBy lt xs)

/-! ### Data model (types.ts) -/

/-- One `{url?, title?}` record inside a tool result payload. -/
structure RecordItem where
  url : Option String
  title : Option String
deriving DecidableEq

/-- Tool result payload: `null`, a single record, or a list of records
(the tagged union the orchestrator's payload checks distinguish). -/
inductive ResultData where
  | null
  | record (item : RecordItem)
  | array (items : List RecordItem)
deriving DecidableEq

/-- The metadata bag fields the orchestration core reads. -/
structure ResultMetadata where
  confidence : Option ℚ
  toolId : Option String
  toolType : Option String
  attempts : Option Nat
deriving DecidableEq

instance : Inhabited ResultMetadata :=
  ⟨{ confidence := none, toolId := none, toolType := none, attempts := none }⟩

/-- ToolResult (types.ts). -/
structure ToolResult where
  success : Bool
  data : ResultData
  error : Option String
  metadata : ResultMetadata
deriving DecidableEq

/-- QueryAnalysis (types.ts). -/
structure QueryAnalysis where
  originalQuery : String
  intent : String
  entities : List String
  constraints : List String
  queryTypes : List String
  extractedUrls : List String
  extractedYouTubeUrls : List String
  confidence : ℚ

/-- The ToolCard fields the orchestration core reads (id, name, the
pure relevance-scoring function).  `execute` lives in `Env`. -/
structure ToolCard where
  id : String
  name : String
  relevanceScore : String → QueryAnalysis → ℚ

/-- The parameter-set fields relevant to the orchestrator's overlay
(`url`, `videoId`) plus the optimizer's `query` rewrite; absent keys and
keys set to `undefined` are both `none`. -/
structure ToolParams where
  query : Option String
  url : Option String
  videoId : Option String
deriving DecidableEq

/-- One entry of the optimizer's `Record<toolId, {query, params}>` reply.
The reply is unvalidated JSON, so it may also carry `url`/`videoId`
keys. -/
structure OptParams where
  query : Option String
  url : Option String
  videoId : Option String
deriving DecidableEq

/-- Extracted citation record (Source in types.ts).  The source copies
the whole item into a metadata bag together with `confidence` and
`toolType`; the fields the claims touch are kept flat here. -/
structure Source where
  id : Nat
  tool : String
  url : Option String
  title : Option String
  confidence : Option ℚ
  toolType : String
deriving DecidableEq

/-- Per-result summary in ResearchResult.metadata.toolResults. -/
structure ToolSummary where
  tool : String
  success : Bool
  confidence : ℚ
deriving DecidableEq

/-! ### Reasoning-service reply shapes and the environment oracle -/

/-- Parsed reply of the query-analysis call (unvalidated JSON: each
field may be absent). -/
structure AnalyzeReply where
  intent : Option String
  entities : Option (List String)
  constraints : Option (List String)
  queryTypes : Option (List String)

/-- Parsed reply of the tool-selection call. -/
structure SelectReply where
  selectedTools : List String
  reasoning : Option (List String)

/-- Parsed reply of the gap-analysis call (after JS destructuring:
only truthiness of `hasGaps` and the string value of `followUpQuery`
matter). -/
structure GapRaw where
  hasGaps : Bool
  followUpQuery : Option String
deriving DecidableEq

/-- Gap-analysis result `{hasGaps, followUpQuery?}`. -/
structure GapResult where
  hasGaps : Bool
  followUpQuery : Option String
deriving DecidableEq

/-- A JSON value, as produced by `JSON.parse` on a reasoning-service
reply (objects are opaque: the relevance-assessment call only iterates
or rejects them). -/
inductive JsonValue where
  | null
  | bool (b : Bool)
  | num (q : ℚ)
  | str (s : String)
  | arr (elems : List JsonValue)
  | obj

/-- Outcome of the relevance-assessment LLM call in orchestrator.ts:
either the call/parse threw, or it produced a JSON value that is handed
to `new Set(...)`. -/
inductive AssessOutcome where
  | throw
  | reply (v : JsonValue)

/-- Oracle for every external dependency call site.  Each field is a
function of the data the source interpolates into the prompt (so
different iterations, queries or result sets may get different
replies); `none`/`.throw`/`.error` models a thrown exception or an
unparseable reply. -/
structure Env where
  /-- queryOptimizer.analyzeQuery LLM call. -/
  analyzeReply : String → Option AnalyzeReply
  /-- selectBestTools LLM call (query, analysis, maxTools appear in the
  prompt). -/
  selectReply : String → QueryAnalysis → Nat → Option SelectReply
  /-- optimizeQueriesForTools LLM call; the reply is a JSON object read
  by tool id. -/
  optimizeReply : String → QueryAnalysis → List String → Option (String → Option OptParams)
  /-- `tool.execute(params)` at a given attempt number: a result, or a
  thrown error message. -/
  executeAttempt : String → ToolParams → Nat → Except String ToolResult
  /-- assessRelevance LLM call (orchestrator.ts variant). -/
  assessReply : String → List ToolResult → AssessOutcome
  /-- assessRelevance generateArray call (resultProcessor.ts variant,
  zod-validated to a list of non-negative indices). -/
  arrayReply : String → List ToolResult → Option (List Nat)
  /-- analyzeGaps LLM call. -/
  gapsReply : String → List ToolResult → Option GapRaw
  /-- synthesizeResults LLM call. -/
  synthReply : String → List ToolResult → Option String

/-! ### queryOptimizer.ts -/

/-- analyzeQuery (queryOptimizer.ts): deterministic URL/YouTube-link
extraction, LLM enrichment with confidence 0.7, heuristic fallback with
confidence 0.5. -/
def analyzeQuery (ops : StringOps) (env : Env) (query : String) : QueryAnalysis :=
  let extractedUrls := ops.matchList .urlPattern query
  let extractedYouTubeUrls := ops.matchList .youtubePattern query
  match env.analyzeReply query with
  | some r =>
      { originalQuery := query
        intent := jsStrOr r.intent "search"
        entities := r.entities.getD []
        constraints := r.constraints.getD []
        queryTypes := r.queryTypes.getD ["general_knowledge"]
        extractedUrls := extractedUrls
        extractedYouTubeUrls := extractedYouTubeUrls
        confidence := 7/10 }
  | none =>
      { originalQuery := query
        intent := "search"
        entities := []
        constraints := []
        queryTypes := ["general_knowledge"]
        extractedUrls := extractedUrls
        extractedYouTubeUrls := extractedYouTubeUrls
        confidence := 1/2 }

/-- optimizeQueriesForTools (queryOptimizer.ts): one batched LLM call;
on failure, maps every selected tool to the original query with empty
extra params. -/
def optimizeQueriesForTools (env : Env) (query : String) (analysis : QueryAnalysis)
    (tools : List ToolCard) : String → Option OptParams :=
  match env.optimizeReply query analysis (tools.map (·.id)) with
  | some m => m
  | none => fun id =>
      if (tools.map (·.id)).contains id then
        some { query := some query, url := none, videoId := none }
      else none

/-- The parameter object passed to a tool in orchestrateResearch:
`{...optimizedParams, ...(urls nonempty && {url: urls[0]}),
...(yts nonempty && {videoId: yts[0].split('v=')[1]})}` — the spreads of
the extracted fields come last, so they override the optimizer. -/
def buildToolParams (opt : Option OptParams) (analysis : QueryAnalysis) : ToolParams :=
  let base : ToolParams :=
    match opt with
    | some o => { query := o.query, url := o.url, videoId := o.videoId }
    | none => { query := none, url := none, videoId := none }
  { query := base.query
    url :=
      match analysis.extractedUrls with
      | u :: _ => some u
      | [] => base.url
    videoId :=
      match analysis.extractedYouTubeUrls with
      | y :: _ => (y.splitOn "v=").get? 1
      | [] => base.videoId }

/-! ### Tool selection (orchestrator.ts selectBestTools) -/

/-- Score every registered tool and sort descending (stable, ties in
catalog order). -/
def scoreAndSort (registry : List ToolCard) (query : String) (analysis : QueryAnalysis) :
    List (ToolCard × ℚ) :=
  sortBy (fun a b => decide (b.2 < a.2))
    (registry.map fun tool => (tool, tool.relevanceScore query analysis))

/-- selectBestTools (orchestrator.ts): LLM selection validated against
the registry; falls back to the top-`maxTools` by raw score when the
call fails, the reply is malformed, or it maps to zero known tools. -/
def selectBestTools (registry : List ToolCard) (env : Env) (query : String)
    (analysis : QueryAnalysis) (maxTools : Nat) : List ToolCard × List String :=
  let scoredTools := scoreAndSort registry query analysis
  let fallback : List ToolCard × List String :=
    ((scoredTools.take maxTools).map (·.1),
      ["Selected based on relevance scores (LLM selection failed)"])
  match env.selectReply query analysis maxTools with
  | some reply =>
      let selected := reply.selectedTools.filterMap fun id =>
        registry.find? fun tool => tool.id = id
      match selected with
      | [] => fallback
      | _ :: _ => (selected, reply.reasoning.getD [])
  | none => fallback

/-! ### Execution layer (executeToolWithRetry) -/

/-- The failure ToolResult produced after retries are exhausted. -/
def retryFailure (msg : String) (attempts : Nat) : ToolResult :=
  { success := false
    data := .null
    error := some msg
    metadata := { confidence := none, toolId := none, toolType := none,
                  attempts := some attempts } }

/-- The retry loop of executeToolWithRetry: `remaining` is
`maxRetries - attempt` (the catch branch retries while
`attempt < maxRetries`, else returns the failure result with the
attempt count). -/
def runRetry (f : Nat → Except String ToolResult) (attempt : Nat) : Nat → ToolResult
  | 0 =>
      match f attempt with
      | .ok r => r
      | .error msg => retryFailure msg (attempt + 1)
  | remaining + 1 =>
      match f attempt with
      | .ok r => r
      | .error _ => runRetry f (attempt + 1) remaining

/-- executeToolWithRetry (orchestrator.ts), `maxRetries = 2`; only the
tool id reaches the oracle.  The backoff delay is timing-only and not
modelled; the post-loop "Unexpected execution flow" return is
unreachable (the catch at `attempt = maxRetries` returns). -/
def executeToolWithRetry (env : Env) (toolId : String) (params : ToolParams) : ToolResult :=
  runRetry (env.executeAttempt toolId params) 0 2

/-! ### Relevance assessment and gap analysis (orchestrator.ts) -/

/-- The elements `new Set(v)` is built from: an array iterates its
elements, a string iterates its characters, and per ECMA-262 a `null`
(or absent) iterable yields an *empty* set; for the remaining values
(number, boolean, plain object — not iterable) the constructor throws
(`none`). -/
def jsonIterate : JsonValue → Option (List JsonValue)
  | .arr xs => some xs
  | .str s => some (s.data.map fun c => .str c.toString)
  | .null => some []
  | _ => none

/-- `set.has(i)` for a numeric index `i` (SameValueZero: only a numeric
element equal to `i` matches). -/
def jsonHasIndex (elems : List JsonValue) (i : Nat) : Bool :=
  elems.any fun v =>
    match v with
    | .num q => q = (i : ℚ)
    | _ => false

/-- assessRelevance (orchestrator.ts): keeps the results whose index is
in the parsed reply set; returns the input unchanged when the LLM call,
`JSON.parse`, or the `Set` construction throws. -/
def assessRelevance (env : Env) (query : String) (results : List ToolResult) :
    List ToolResult :=
  match env.assessReply query results with
  | .throw => results
  | .reply v =>
      match jsonIterate v with
      | none => results
      | some elems =>
          ((withIdx 0 results).filter fun p => jsonHasIndex elems p.1).map Prod.snd

/-- assessRelevance (resultProcessor.ts): the generateArray call is
zod-validated to a list of indices; any failure (throw or schema
violation) returns the input unchanged. -/
def assessRelevanceProcessor (env : Env) (query : String) (results : List ToolResult) :
    List ToolResult :=
  match env.arrayReply query results with
  | none => results
  | some idxs =>
      ((withIdx 0 results).filter fun p => idxs.contains p.1).map Prod.snd

/-- analyzeGaps (orchestrator.ts): `followUpQuery || undefined`
normalises a falsy follow-up to absent; any failure yields
`{hasGaps: false}`. -/
def analyzeGaps (env : Env) (query : String) (results : List ToolResult) : GapResult :=
  match env.gapsReply query results with
  | some r => { hasGaps := r.hasGaps, followUpQuery := strTruthyOpt r.followUpQuery }
  | none => { hasGaps := false, followUpQuery := none }

/-! ### Source extraction (extractSources) -/

/-- The source entries contributed by one tool result at position
`index` (ids are `index*100 + itemIndex + 1`). -/
def sourceEntriesOf (index : Nat) (result : ToolResult) (toolName toolId : String) :
    List Source :=
  if result.success = false ∨ result.data = ResultData.null then []
  else
    match result.data with
    | .array items =>
        (withIdx 0 items).filterMap fun p =>
          if optTruthy p.2.url || optTruthy p.2.title then
            some { id := index * 100 + p.1 + 1
                   tool := toolName
                   url := p.2.url
                   title := jsOrOpt p.2.title p.2.url
                   confidence := result.metadata.confidence
                   toolType := toolId }
          else none
    | .record item =>
        if optTruthy item.url || optTruthy item.title then
          [{ id := index * 100 + 1
             tool := toolName
             url := item.url
             title := jsOrOpt item.title item.url
             confidence := result.metadata.confidence
             toolType := toolId }]
        else []
    | .null => []

/-- Number of payload records a result can contribute sources from. -/
def resultItemCount (r : ToolResult) : Nat :=
  match r.data with
  | .array items => items.length
  | .record _ => 1
  | .null => 0

/-- The `flatMap` of extractSources, before sorting: each result
(paired with its index) contributes its source entries.  `tools[index]`
is in range at every call site (the result list is never longer than
the tool list). -/
def sourceRows (results : List ToolResult) (tools : List ToolCard) : List Source :=
  ((withIdx 0 results).map fun p =>
    sourceEntriesOf p.1 p.2
      (((tools.get? p.1).map (·.name)).getD "undefined")
      (((tools.get? p.1).map (·.id)).getD "undefined")).flatten

/-- extractSources (orchestrator.ts): flatMap with per-result indices,
then sort ascending by id. -/
def extractSources (results : List ToolResult) (tools : List ToolCard) : List Source :=
  sortBy (fun a b => decide (a.id < b.id)) (sourceRows results tools)

/-! ### Synthesis (synthesizeResults) -/

/-- synthesizeResults (orchestrator.ts): LLM synthesis with a
deterministic plain-text fallback. -/
def synthesizeResults (env : Env) (query : String) (results : List ToolResult) : String :=
  (env.synthReply query results).getD
    ("Unable to synthesize results. Found " ++ toString results.length ++ " relevant results.")

/-! ### Confidence scoring (orchestrator.ts calculateConfidence) -/

/-- The five citation patterns. -/
def citationPatterns : List Pat :=
  [.citeNumeric, .citeAuthorYear, .citeParenYear, .citeSourceTag, .citeBibliography]

/-- Total number of citation-like matches in the synthesized answer. -/
def citationCount (ops : StringOps) (ans : String) : Nat :=
  (citationPatterns.map fun p => ops.countMatches p ans).sum

/-- `synthesizedAnswer.split(/\s+/).length`. -/
def wordCount (ops : StringOps) (ans : String) : Nat :=
  ops.splitCount .whitespaceSplit ans

/-- `min((citationCount / max(floor(wordCount/100), 1)) * 2, 1.0)`. -/
def citationDensity (ops : StringOps) (ans : String) : ℚ :=
  min (((citationCount ops ans : ℚ) / ((max (wordCount ops ans / 100) 1 : Nat) : ℚ)) * 2) 1

/-- The four `hasSections` checks. -/
def sectionFlags (ops : StringOps) (ans : String) : List Bool :=
  [ops.testPat .secIntro ans,
   ops.testPat .secConcl ans,
   ops.testPat .secCiteHeader ans,
   decide (2 ≤ ops.countMatches .sectionHeadings ans)]

/-- Fraction of the section checks passed. -/
def sectionScore (ops : StringOps) (ans : String) : ℚ :=
  ((sectionFlags ops ans).countP id : ℚ) / 4

/-- The four `formatting` checks. -/
def formattingFlags (ops : StringOps) (ans : String) : List Bool :=
  [decide (3 ≤ ops.countMatches .boldSpan ans),
   ops.testPat .listMarkers ans,
   decide (2 ≤ ops.countMatches .headingLines ans),
   decide (3 ≤ ops.splitCount .paragraphBreak ans)]

/-- Fraction of the formatting checks passed. -/
def formattingScore (ops : StringOps) (ans : String) : ℚ :=
  ((formattingFlags ops ans).countP id : ℚ) / 4

/-- The four `contentQuality` checks. -/
def contentQualityFlags (ops : StringOps) (ans : String) : List Bool :=
  [decide (5 ≤ ops.countMatches .boldSpan ans),
   decide (4 ≤ ops.splitCount .paragraphBreak ans),
   !ops.testPat .inconsistentFmt ans,
   decide (2 ≤ ops.countMatches .meaningfulHeadings ans)]

/-- Fraction of the content-quality checks passed. -/
def contentQualityScore (ops : StringOps) (ans : String) : ℚ :=
  ((contentQualityFlags ops ans).countP id : ℚ) / 4

/-- The truthy url strings inside a result payload
(`r.data.map(item => item.url).filter(Boolean)` / `[r.data.url]`). -/
def urlsOfData : ResultData → List String
  | .array items => items.filterMap fun it => strTruthyOpt it.url
  | .record it =>
      match strTruthyOpt it.url with
      | some u => [u]
      | none => []
  | .null => []

/-- Number of distinct urls across the given results (a JS `Set`). -/
def uniqueUrls (results : List ToolResult) : Nat :=
  ((results.map fun r => urlsOfData r.data).flatten).dedup.length

/-- Number of distinct truthy `metadata.toolType` values. -/
def uniqueToolTypes (results : List ToolResult) : Nat :=
  (results.filterMap fun r => strTruthyOpt r.metadata.toolType).dedup.length

/-- `min(uniqueUrls/2 + uniqueToolTypes/3, 1.0)`. -/
def sourceDiversityFactor (results : List ToolResult) : ℚ :=
  min ((uniqueUrls results : ℚ) / 2 + (uniqueToolTypes results : ℚ) / 3) 1

/-- Mean per-result confidence with the `|| 0.5` default. -/
def avgResultConfidence (results : List ToolResult) : ℚ :=
  (results.map fun r => jsNumOr r.metadata.confidence (1/2)).sum / (results.length : ℚ)

/-- calculateConfidence (orchestrator.ts): 0 when no result succeeded,
otherwise the 7-term weighted blend clamped to 1.  The diagnostic
metadata attached to the first successful result is observability-only
and not modelled. -/
def calculateConfidence (ops : StringOps) (results : List ToolResult)
    (analysis : QueryAnalysis) (ans : String) : ℚ :=
  let successfulResults := results.filter (·.success)
  if successfulResults.isEmpty then 0
  else
    min (avgResultConfidence successfulResults * 0.15
        + analysis.confidence * 0.10
        + citationDensity ops ans * 0.20
        + sectionScore ops ans * 0.15
        + formattingScore ops ans * 0.15
        + contentQualityScore ops ans * 0.15
        + sourceDiversityFactor successfulResults * 0.10) 1

/-! ### Confidence scoring (resultProcessor.ts) -/

/-- evaluateSourceQuality (resultProcessor.ts). -/
def evaluateSourceQuality (results : List ToolResult) : ℚ :=
  avgResultConfidence results * 0.6 + sourceDiversityFactor results * 0.4

/-- evaluateStructure (resultProcessor.ts) — same checks as the
orchestrator's section score. -/
def evaluateStructure (ops : StringOps) (ans : String) : ℚ :=
  sectionScore ops ans

/-- evaluateFormatting (resultProcessor.ts). -/
def evaluateFormatting (ops : StringOps) (ans : String) : ℚ :=
  formattingScore ops ans

/-- evaluateQualityIndicators (resultProcessor.ts). -/
def evaluateQualityIndicators (ops : StringOps) (ans : String) : ℚ :=
  contentQualityScore ops ans

/-- evaluateCitations (resultProcessor.ts) — the same
citation-density formula as the orchestrator. -/
def evaluateCitations (ops : StringOps) (ans : String) : ℚ :=
  citationDensity ops ans

/-- Per-query-type coverage check (the `switch` in evaluateCoverage). -/
def queryTypeCovered (ops : StringOps) (ans : String) (t : String) : Bool :=
  match t.toLower with
  | "comparison" => ops.testPat .covComparison ans
  | "factual" => ops.testPat .covFactual ans
  | "explanation" => ops.testPat .covExplanation ans
  | "howto" => ops.testPat .covHowto ans
  | "opinion" => ops.testPat .covOpinion ans
  | _ => true

/-- evaluateCoverage (resultProcessor.ts). -/
def evaluateCoverage (ops : StringOps) (ans : String) (analysis : QueryAnalysis) : ℚ :=
  let entityCoverage : ℚ :=
    if 0 < analysis.entities.length then
      ((analysis.entities.filter fun e => ops.includesLower ans e).length : ℚ)
        / (analysis.entities.length : ℚ)
    else 0.7
  let queryTypeCoverage : ℚ :=
    if 0 < analysis.queryTypes.length then
      ((analysis.queryTypes.filter fun t => queryTypeCovered ops ans t).length : ℚ)
        / (analysis.queryTypes.length : ℚ)
    else 0.7
  let intentAlignment : ℚ :=
    if 0 < analysis.intent.length then
      (if ops.includesLower ans analysis.intent then 1 else 0)
    else 0.7
  entityCoverage * 0.4 + queryTypeCoverage * 0.3 + intentAlignment * 0.3

/-- evaluateContentQuality (resultProcessor.ts). -/
def evaluateContentQuality (ops : StringOps) (ans : String) (analysis : QueryAnalysis) : ℚ :=
  evaluateStructure ops ans * 0.3 + evaluateFormatting ops ans * 0.2
    + evaluateQualityIndicators ops ans * 0.2 + evaluateCoverage ops ans analysis * 0.3

/-- calculateConfidence (resultProcessor.ts): 0 when no result
succeeded, else `min(0.4·source + 0.4·content + 0.2·citation, 1)` over
the successful subset (logConfidenceMetadata is observability-only and
not modelled). -/
def calculateConfidenceProcessor (ops : StringOps) (results : List ToolResult)
    (analysis : QueryAnalysis) (ans : String) : ℚ :=
  let successfulResults := results.filter (·.success)
  if successfulResults.isEmpty then 0
  else
    min (0.4 * evaluateSourceQuality successfulResults
        + 0.4 * evaluateContentQuality ops ans analysis
        + 0.2 * evaluateCitations ops ans) 1

/-! ### Orchestration loop (orchestrateResearch) -/

/-- Instrumentation: the tool calls one round actually executed
(tool id and the exact parameter object passed). -/
structure RoundRecord where
  executed : List (String × ToolParams)
deriving DecidableEq

/-- The loop-scoped mutable state of orchestrateResearch, plus the
execution trace (ghost instrumentation — it records calls and is never
read by the loop). -/
structure LoopState where
  iteration : Nat
  allResults : List ToolResult
  allSources : List Source
  history : List String
  trace : List RoundRecord
deriving DecidableEq

/-- `Set.add` over a list of ids: insertion-ordered, duplicates
skipped (models `toolSelectionHistory`). -/
def addUsed (history : List String) (ids : List String) : List String :=
  ids.foldl (fun h id => if h.contains id then h else h ++ [id]) history

/-- `Math.ceil(depth * 1.5)` for an integer depth. -/
def ceilDepth15 (depth : Int) : Nat :=
  ((3 * depth + 1) / 2).toNat

/-- The `while (iteration < depth)` loop of orchestrateResearch.  The
fuel argument equals `(depth - iteration).toNat`, so `fuel = 0` is the
loop guard failing (this also covers the source's explicit
`if (iteration >= depth) break` after the increment, which is the same
guard).  A round: select tools for the current query, drop ids already
in the history (break on none), optimize queries, execute every new
tool with the overlaid params, assess relevance against the original
query, accumulate results and sources, analyze gaps, and either stop or
continue with the follow-up query. -/
def researchLoop (ops : StringOps) (env : Env) (registry : List ToolCard)
    (query : String) (analysis : QueryAnalysis) (depth : Int) :
    Nat → Nat → String → List ToolResult → List Source → List String →
    List RoundRecord → LoopState
  | 0, iteration, _currentQuery, allResults, allSources, history, trace =>
      { iteration := iteration, allResults := allResults, allSources := allSources,
        history := history, trace := trace }
  | fuel + 1, iteration, currentQuery, allResults, allSources, history, trace =>
      let selected := (selectBestTools registry env currentQuery analysis (ceilDepth15 depth)).1
      match selected.filter fun t => !(history.contains t.id) with
      | [] =>
          { iteration := iteration, allResults := allResults, allSources := allSources,
            history := history, trace := trace }
      | t0 :: ts =>
          let newTools := t0 :: ts
          let history2 := addUsed history (newTools.map (·.id))
          let optimized := optimizeQueriesForTools env currentQuery analysis newTools
          let calls := newTools.map fun t => (t.id, buildToolParams (optimized t.id) analysis)
          let iterationResults := calls.map fun c => executeToolWithRetry env c.1 c.2
          let relevantResults := assessRelevance env query iterationResults
          let allResults2 := allResults ++ relevantResults
          let newSources := extractSources relevantResults newTools
          let allSources2 := allSources ++ newSources
          let gap := analyzeGaps env query allResults2
          let trace2 := trace ++ [⟨calls⟩]
          match gap.hasGaps, gap.followUpQuery with
          | true, some fq =>
              researchLoop ops env registry query analysis depth fuel (iteration + 1)
                fq allResults2 allSources2 history2 trace2
          | _, _ =>
              { iteration := iteration, allResults := allResults2,
                allSources := allSources2, history := history2, trace := trace2 }

/-- ResearchResult (types.ts); `executionTime` is wall-clock and not
modelled; `trace` is ghost instrumentation. -/
structure ResearchResult where
  answer : String
  sources : List Source
  confidence : ℚ
  iterations : Nat
  totalResults : Nat
  queryTypes : List String
  toolsUsed : List String
  toolSummaries : List ToolSummary
  trace : List RoundRecord

/-- orchestrateResearch (orchestrator.ts). -/
def orchestrateResearch (ops : StringOps) (env : Env) (registry : List ToolCard)
    (query : String) (depth : Int) : ResearchResult :=
  let analysis := analyzeQuery ops env query
  let st := researchLoop ops env registry query analysis depth depth.toNat 0 query [] [] [] []
  let answer := synthesizeResults env query st.allResults
  let confidence := calculateConfidence ops st.allResults analysis answer
  { answer := answer
    sources := st.allSources
    confidence := confidence
    iterations := st.iteration + 1
    totalResults := st.allResults.length
    queryTypes := analysis.queryTypes
    toolsUsed := st.history
    toolSummaries := (withIdx 0 st.allResults).map fun p =>
      { tool := jsStrOr p.2.metadata.toolId ("unknown_tool_" ++ toString p.1)
        success := p.2.success
        confidence := jsNumOr p.2.metadata.confidence 0 }
    trace := st.trace }

end Research

namespace Research

/-! ### Basic lemmas about the JS helpers -/

theorem jsNumOr_half_bounds (o : Option ℚ)
    (h : ∀ c, o = some c → 0 ≤ c ∧ c ≤ 1) :
    0 ≤ jsNumOr o (1/2) ∧ jsNumOr o (1/2) ≤ 1 := by
  cases o with
  | none => simp [jsNumOr]; norm_num
  | some q =>
      simp only [jsNumOr]
      split
      · norm_num
      · exact h q rfl

theorem withIdx_map_snd (s : Nat) : ∀ l : List α, (withIdx s l).map Prod.snd = l := by
  intro l
  induction l generalizing s with
  | nil => rfl
  | cons x xs ih => simp [withIdx, ih]

theorem mem_withIdx_bounds {s : Nat} :
    ∀ {l : List α} {p : Nat × α}, p ∈ withIdx s l → s ≤ p.1 ∧ p.1 < s + l.length := by
  intro l
  induction l generalizing s with
  | nil => intro p h; simp [withIdx] at h
  | cons x xs ih =>
      intro p h
      simp only [withIdx, List.mem_cons] at h
      rcases h with h | h
      · subst h
        refine ⟨le_refl _, ?_⟩
        show s < s + (xs.length + 1)
        omega
      · have h2 := ih h
        have h3 : (x :: xs).length = xs.length + 1 := rfl
        omega

theorem pairwise_fst_lt_withIdx (s : Nat) :
    ∀ l : List α, List.Pairwise (fun a b => a.1 < b.1) (withIdx s l) := by
  intro l
  induction l generalizing s with
  | nil => exact List.Pairwise.nil
  | cons x xs ih =>
      refine List.Pairwise.cons ?_ (ih (s + 1))
      intro p hp
      have h := (mem_withIdx_bounds hp).1
      show s < p.1
      omega

/-! ### Lemmas about the stable sort -/

theorem mem_insertBy {lt : α → α → Bool} {x a : α} :
    ∀ {l : List α}, a ∈ insertBy lt x l ↔ a = x ∨ a ∈ l := by
  intro l
  induction l with
  | nil => simp [insertBy]
  | cons y ys ih =>
      simp only [insertBy]
      split
      · simp only [List.mem_cons, ih]
        tauto
      · simp

theorem perm_insertBy (lt : α → α → Bool) (x : α) :
    ∀ l : List α, List.Perm (insertBy lt x l) (x :: l) := by
  intro l
  induction l with
  | nil => exact List.Perm.refl _
  | cons y ys ih =>
      simp only [insertBy]
      split
      · exact (ih.cons y).trans (List.Perm.swap x y ys)
      · exact List.Perm.refl _

theorem perm_sortBy (lt : α → α → Bool) : ∀ l : List α, List.Perm (sortBy lt l) l := by
  intro l
  induction l with
  | nil => exact List.Perm.refl _
  | cons x xs ih => exact (perm_insertBy lt x (sortBy lt xs)).trans (ih.cons x)

theorem mem_sortBy {lt : α → α → Bool} {a : α} {l : List α} :
    a ∈ sortBy lt l ↔ a ∈ l :=
  (perm_sortBy lt l).mem_iff

theorem length_sortBy (lt : α → α → Bool) (l : List α) :
    (sortBy lt l).length = l.length :=
  (perm_sortBy lt l).length_eq

theorem pairwise_insertBy (lt : α → α → Bool)
    (hasymm : ∀ a b, lt a b = true → lt b a = false)
    (hnegtrans : ∀ a b c, lt a b = false → lt b c = false → lt a c = false)
    (x : α) :
    ∀ l : List α, List.Pairwise (fun a b => lt b a = false) l →
      List.Pairwise (fun a b => lt b a = false) (insertBy lt x l) := by
  intro l
  induction l with
  | nil => intro _; simp [insertBy]
  | cons y ys ih =>
      intro h
      cases h with
      | cons hy hys =>
          simp only [insertBy]
          split
          · rename_i hlt
            refine List.Pairwise.cons ?_ (ih hys)
            intro b hb
            rcases mem_insertBy.1 hb with hb | hb
            · rw [hb]
              exact hasymm y x hlt
            · exact hy b hb
          · rename_i hlt
            have hyx : lt y x = false := by
              cases hc : lt y x with
              | false => rfl
              | true => exact absurd hc hlt
            refine List.Pairwise.cons ?_ (List.Pairwise.cons hy hys)
            intro b hb
            rcases List.mem_cons.1 hb with hb | hb
            · rw [hb]; exact hyx
            · exact hnegtrans b y x (hy b hb) hyx

theorem pairwise_sortBy (lt : α → α → Bool)
    (hasymm : ∀ a b, lt a b = true → lt b a = false)
    (hnegtrans : ∀ a b c, lt a b = false → lt b c = false → lt a c = false) :
    ∀ l : List α, List.Pairwise (fun a b => lt b a = false) (sortBy lt l) := by
  intro l
  induction l with
  | nil => exact List.Pairwise.nil
  | cons x xs ih => exact pairwise_insertBy lt hasymm hnegtrans x (sortBy lt xs) ih

/-! ### Lemmas about `addUsed` -/

theorem mem_addUsed_of_mem_left :
    ∀ (ids : List String) (history : List String) (s : String),
      s ∈ history → s ∈ addUsed history ids := by
  intro ids
  induction ids with
  | nil => intro history s h; exact h
  | cons i is ih =>
      intro history s h
      simp only [addUsed, List.foldl_cons]
      apply ih
      split
      · exact h
      · exact List.mem_append_left _ h

theorem mem_addUsed_of_mem_right :
    ∀ (ids : List String) (history : List String) (s : String),
      s ∈ ids → s ∈ addUsed history ids := by
  intro ids
  induction ids with
  | nil => intro history s h; simp at h
  | cons i is ih =>
      intro history s h
      rcases List.mem_cons.1 h with h | h
      · subst h
        simp only [addUsed, List.foldl_cons]
        apply mem_addUsed_of_mem_left
        split
        · rename_i hc
          simpa using hc
        · exact List.mem_append_right _ (by simp)
      · simp only [addUsed, List.foldl_cons]
        exact ih _ s h

/-! ### Execution-layer lemmas -/

/-- The ToolResult contract of §3/§6: any execution-confidence scalar a
tool reports lies in `[0,1]`. -/
def ConfOK (r : ToolResult) : Prop :=
  ∀ c, r.metadata.confidence = some c → 0 ≤ c ∧ c ≤ 1

/-- The environment's tools respect the ToolResult contract. -/
def EnvConfOK (env : Env) : Prop :=
  ∀ tid p n r, env.executeAttempt tid p n = .ok r → ConfOK r

theorem runRetry_confOK {f : Nat → Except String ToolResult}
    (hf : ∀ n r, f n = .ok r → ConfOK r) :
    ∀ (remaining attempt : Nat), ConfOK (runRetry f attempt remaining) := by
  intro remaining
  induction remaining with
  | zero =>
      intro attempt
      simp only [runRetry]
      cases hc : f attempt with
      | ok r => exact hf attempt r hc
      | error msg => intro c h; simp [retryFailure] at h
  | succ rem ih =>
      intro attempt
      simp only [runRetry]
      cases hc : f attempt with
      | ok r => exact hf attempt r hc
      | error msg => exact ih (attempt + 1)

theorem executeToolWithRetry_confOK {env : Env} (henv : EnvConfOK env)
    (tid : String) (p : ToolParams) : ConfOK (executeToolWithRetry env tid p) :=
  runRetry_confOK (fun n r h => henv tid p n r h) 2 0

/-! ### Relevance-assessment lemmas -/

theorem assessRelevance_subset (env : Env) (query : String) (results : List ToolResult) :
    ∀ r ∈ assessRelevance env query results, r ∈ results := by
  intro r h
  unfold assessRelevance at h
  split at h
  · exact h
  · split at h
    · exact h
    · rename_i elems _
      have hsub : ((withIdx 0 results).filter fun p => jsonHasIndex elems p.1).Sublist
          (withIdx 0 results) := List.filter_sublist _
      have h2 := (hsub.map Prod.snd).subset h
      rwa [withIdx_map_snd] at h2

/-! ### Loop unfolding lemmas -/

theorem researchLoop_zero (ops : StringOps) (env : Env) (registry : List ToolCard)
    (query : String) (analysis : QueryAnalysis) (depth : Int)
    (iteration : Nat) (cq : String) (ar : List ToolResult) (asrc : List Source)
    (hist : List String) (tr : List RoundRecord) :
    researchLoop ops env registry query analysis depth 0 iteration cq ar asrc hist tr
      = { iteration := iteration, allResults := ar, allSources := asrc,
          history := hist, trace := tr } := rfl

theorem researchLoop_succ_nil (ops : StringOps) (env : Env) (registry : List ToolCard)
    (query : String) (analysis : QueryAnalysis) (depth : Int)
    (fuel iteration : Nat) (cq : String) (ar : List ToolResult) (asrc : List Source)
    (hist : List String) (tr : List RoundRecord)
    (h : (selectBestTools registry env cq analysis (ceilDepth15 depth)).1.filter
          (fun t => !(hist.contains t.id)) = []) :
    researchLoop ops env registry query analysis depth (fuel + 1) iteration cq ar asrc hist tr
      = { iteration := iteration, allResults := ar, allSources := asrc,
          history := hist, trace := tr } := by
  simp only [researchLoop]
  rw [h]

theorem researchLoop_succ_cons (ops : StringOps) (env : Env) (registry : List ToolCard)
    (query : String) (analysis : QueryAnalysis) (depth : Int)
    (fuel iteration : Nat) (cq : String) (ar : List ToolResult) (asrc : List Source)
    (hist : List String) (tr : List RoundRecord) (t0 : ToolCard) (ts : List ToolCard)
    (h : (selectBestTools registry env cq analysis (ceilDepth15 depth)).1.filter
          (fun t => !(hist.contains t.id)) = t0 :: ts) :
    researchLoop ops env registry query analysis depth (fuel + 1) iteration cq ar asrc hist tr
      = (let newTools := t0 :: ts
         let history2 := addUsed hist (newTools.map (·.id))
         let optimized := optimizeQueriesForTools env cq analysis newTools
         let calls := newTools.map fun t => (t.id, buildToolParams (optimized t.id) analysis)
         let iterationResults := calls.map fun c => executeToolWithRetry env c.1 c.2
         let relevantResults := assessRelevance env query iterationResults
         let allResults2 := ar ++ relevantResults
         let newSources := extractSources relevantResults newTools
         let allSources2 := asrc ++ newSources
         let gap := analyzeGaps env query allResults2
         let trace2 := tr ++ [⟨calls⟩]
         match gap.hasGaps, gap.followUpQuery with
         | true, some fq =>
             researchLoop ops env registry query analysis depth fuel (iteration + 1)
               fq allResults2 allSources2 history2 trace2
         | _, _ =>
             { iteration := iteration, allResults := allResults2,
               allSources := allSources2, history := history2, trace := trace2 }) := by
  simp only [researchLoop]
  rw [h]

/-- Every accumulated result of the loop is either carried in from the
initial state or came out of `executeToolWithRetry`, so it satisfies the
confidence contract. -/
theorem researchLoop_confOK (ops : StringOps) (env : Env) (registry : List ToolCard)
    (query : String) (analysis : QueryAnalysis) (depth : Int) (henv : EnvConfOK env) :
    ∀ (fuel iteration : Nat) (cq : String) (ar : List ToolResult) (asrc : List Source)
      (hist : List String) (tr : List RoundRecord),
      (∀ r ∈ ar, ConfOK r) →
      ∀ r ∈ (researchLoop ops env registry query analysis depth
              fuel iteration cq ar asrc hist tr).allResults, ConfOK r := by
  intro fuel
  induction fuel with
  | zero =>
      intro iteration cq ar asrc hist tr har
      rw [researchLoop_zero]
      exact har
  | succ fuel ih =>
      intro iteration cq ar asrc hist tr har
      cases hsel : (selectBestTools registry env cq analysis (ceilDepth15 depth)).1.filter
          (fun t => !(hist.contains t.id)) with
      | nil =>
          rw [researchLoop_succ_nil ops env registry query analysis depth fuel iteration cq
            ar asrc hist tr hsel]
          exact har
      | cons t0 ts =>
          rw [researchLoop_succ_cons ops env registry query analysis depth fuel iteration cq
            ar asrc hist tr t0 ts hsel]
          simp only
          have har2 : ∀ r ∈ ar ++ assessRelevance env query
              (((t0 :: ts).map fun t =>
                  (t.id, buildToolParams
                    (optimizeQueriesForTools env cq analysis (t0 :: ts) t.id) analysis)).map
                fun c => executeToolWithRetry env c.1 c.2), ConfOK r := by
            intro r hr
            rcases List.mem_append.1 hr with hr | hr
            · exact har r hr
            · have hr2 := assessRelevance_subset env query _ r hr
              rcases List.mem_map.1 hr2 with ⟨c, _, hc⟩
              exact hc ▸ executeToolWithRetry_confOK henv c.1 c.2
          cases hb : (analyzeGaps env query (ar ++ _)).hasGaps with
          | true =>
              cases ho : (analyzeGaps env query (ar ++ _)).followUpQuery with
              | some fq => exact ih _ _ _ _ _ _ har2
              | none => exact har2
          | false => exact har2

/-! ### Confidence bound lemmas -/

theorem avgResultConfidence_bounds (results : List ToolResult)
    (hne : results ≠ []) (h : ∀ r ∈ results, ConfOK r) :
    0 ≤ avgResultConfidence results ∧ avgResultConfidence results ≤ 1 := by
  have hlen : 0 < (results.length : ℚ) := by
    have : 0 < results.length := List.length_pos.2 hne
    exact_mod_cast this
  have hmem : ∀ x ∈ results.map fun r => jsNumOr r.metadata.confidence (1/2),
      0 ≤ x ∧ x ≤ 1 := by
    intro x hx
    rcases List.mem_map.1 hx with ⟨r, hr, hrx⟩
    exact hrx ▸ jsNumOr_half_bounds _ (h r hr)
  have hsum0 : 0 ≤ (results.map fun r => jsNumOr r.metadata.confidence (1/2)).sum :=
    List.sum_nonneg fun x hx => (hmem x hx).1
  have hsum1 : (results.map fun r => jsNumOr r.metadata.confidence (1/2)).sum
      ≤ (results.length : ℚ) := by
    have := List.sum_le_card_nsmul (results.map fun r => jsNumOr r.metadata.confidence (1/2))
      1 (fun x hx => (hmem x hx).2)
    simpa [nsmul_eq_mul] using this
  constructor
  · exact div_nonneg hsum0 (le_of_lt hlen)
  · rw [avgResultConfidence, div_le_one hlen]
    exact hsum1

theorem citationDensity_bounds (ops : StringOps) (ans : String) :
    0 ≤ citationDensity ops ans ∧ citationDensity ops ans ≤ 1 := by
  constructor
  · apply le_min _ zero_le_one
    apply mul_nonneg _ (by norm_num)
    apply div_nonneg (by positivity) (by positivity)
  · exact min_le_right _ _

theorem countP_div4_bounds (flags : List Bool) (hl : flags.length = 4) :
    0 ≤ ((flags.countP id : ℚ)) / 4 ∧ ((flags.countP id : ℚ)) / 4 ≤ 1 := by
  have hle : flags.countP id ≤ 4 := hl ▸ List.countP_le_length _
  constructor
  · positivity
  · rw [div_le_one (by norm_num)]
    exact_mod_cast hle

theorem sectionScore_bounds (ops : StringOps) (ans : String) :
    0 ≤ sectionScore ops ans ∧ sectionScore ops ans ≤ 1 :=
  countP_div4_bounds _ rfl

theorem formattingScore_bounds (ops : StringOps) (ans : String) :
    0 ≤ formattingScore ops ans ∧ formattingScore ops ans ≤ 1 :=
  countP_div4_bounds _ rfl

theorem contentQualityScore_bounds (ops : StringOps) (ans : String) :
    0 ≤ contentQualityScore ops ans ∧ contentQualityScore ops ans ≤ 1 :=
  countP_div4_bounds _ rfl

theorem sourceDiversityFactor_bounds (results : List ToolResult) :
    0 ≤ sourceDiversityFactor results ∧ sourceDiversityFactor results ≤ 1 := by
  constructor
  · apply le_min _ zero_le_one
    positivity
  · exact min_le_right _ _

/-- The orchestrator's confidence score always lies in `[0,1]`, given
tools that respect the ToolResult confidence contract. -/
theorem calculateConfidence_bounds (ops : StringOps) (results : List ToolResult)
    (analysis : QueryAnalysis) (ans : String)
    (hres : ∀ r ∈ results, ConfOK r)
    (ha0 : 0 ≤ analysis.confidence) (ha1 : analysis.confidence ≤ 1) :
    0 ≤ calculateConfidence ops results analysis ans
      ∧ calculateConfidence ops results analysis ans ≤ 1 := by
  unfold calculateConfidence
  cases hsucc : results.filter (·.success) with
  | nil => simp
  | cons a l =>
      simp only [List.isEmpty_cons, Bool.false_eq_true, if_false]
      have hne : results.filter (·.success) ≠ [] := by rw [hsucc]; simp
      have hmem : ∀ r ∈ results.filter (·.success), ConfOK r := fun r hr =>
        hres r (List.mem_of_mem_filter hr)
      have havg := avgResultConfidence_bounds _ hne hmem
      have hcd := citationDensity_bounds ops ans
      have hsec := sectionScore_bounds ops ans
      have hfmt := formattingScore_bounds ops ans
      have hcq := contentQualityScore_bounds ops ans
      have hdiv := sourceDiversityFactor_bounds (results.filter (·.success))
      rw [hsucc] at havg hdiv
      constructor
      · apply le_min _ zero_le_one
        have h1 := havg.1; have h2 := hcd.1; have h3 := hsec.1
        have h4 := hfmt.1; have h5 := hcq.1; have h6 := hdiv.1
        nlinarith
      · exact min_le_right _ _

theorem analyzeQuery_confidence_bounds (ops : StringOps) (env : Env) (query : String) :
    0 ≤ (analyzeQuery ops env query).confidence
      ∧ (analyzeQuery ops env query).confidence ≤ 1 := by
  unfold analyzeQuery
  cases env.analyzeReply query <;> norm_num

/-- Claim C1: for every query string and every depth,
`orchestrateResearch(query, depth, env)` returns a `ResearchResult`
whose confidence lies in `[0,1]`, and never propagates an exception to
its caller, even when every external dependency call fails or throws.
The absence of exceptions is modelled by totality: every failure mode
of every external call site is a value of the `Env` oracle
(`none`/`.throw`/`.error`), the theorem quantifies over all of them,
and `orchestrateResearch` is a total function.  The `[0,1]` bound uses
only the ToolResult contract (§3) that tool-reported execution
confidences lie in `[0,1]` (`EnvConfOK`). -/
theorem c1_confidence_in_unit_interval (ops : StringOps) (env : Env)
    (registry : List ToolCard) (query : String) (depth : Int)
    (henv : EnvConfOK env) :
    0 ≤ (orchestrateResearch ops env registry query depth).confidence
      ∧ (orchestrateResearch ops env registry query depth).confidence ≤ 1 := by
  unfold orchestrateResearch
  simp only
  apply calculateConfidence_bounds
  · exact researchLoop_confOK ops env registry query _ depth henv _ 0 query [] [] [] []
      (by intro r hr; simp at hr)
  · exact (analyzeQuery_confidence_bounds ops env query).1
  · exact (analyzeQuery_confidence_bounds ops env query).2

/-! ### Concrete environments for witnesses and counterexamples -/

/-- Trivial regex engine (every count 0, every test false, every split
a single chunk). -/
def trivOps : StringOps where
  countMatches := fun _ _ => 0
  testPat := fun _ _ => false
  splitCount := fun _ _ => 1
  matchList := fun _ _ => []
  includesLower := fun _ _ => false
  splitCount_pos := fun _ _ => Nat.one_pos

/-- An environment in which every external dependency call fails. -/
def failEnv : Env where
  analyzeReply := fun _ => none
  selectReply := fun _ _ _ => none
  optimizeReply := fun _ _ _ => none
  executeAttempt := fun _ _ _ => .error "network error"
  assessReply := fun _ _ => .throw
  arrayReply := fun _ _ => none
  gapsReply := fun _ _ => none
  synthReply := fun _ _ => none

theorem failEnv_confOK : EnvConfOK failEnv :=
  fun _ _ _ _ h => Except.noConfusion h

/-- Witness for C1 at the all-failing environment. -/
theorem c1_witness :
    EnvConfOK failEnv
      ∧ (0 ≤ (orchestrateResearch trivOps failEnv [] "q" 1).confidence
          ∧ (orchestrateResearch trivOps failEnv [] "q" 1).confidence ≤ 1) :=
  ⟨failEnv_confOK,
   c1_confidence_in_unit_interval trivOps failEnv [] "q" 1 failEnv_confOK⟩

end Research

namespace Research

/-! ### Iteration / round-count bounds -/

theorem researchLoop_counts (ops : StringOps) (env : Env) (registry : List ToolCard)
    (query : String) (analysis : QueryAnalysis) (depth : Int) :
    ∀ (fuel iteration : Nat) (cq : String) (ar : List ToolResult) (asrc : List Source)
      (hist : List String) (tr : List RoundRecord),
      (researchLoop ops env registry query analysis depth
          fuel iteration cq ar asrc hist tr).iteration ≤ iteration + fuel
      ∧ (researchLoop ops env registry query analysis depth
          fuel iteration cq ar asrc hist tr).trace.length ≤ tr.length + fuel := by
  intro fuel
  induction fuel with
  | zero =>
      intro iteration cq ar asrc hist tr
      rw [researchLoop_zero]
      exact ⟨Nat.le_add_right _ _, Nat.le_add_right _ _⟩
  | succ fuel ih =>
      intro iteration cq ar asrc hist tr
      cases hsel : (selectBestTools registry env cq analysis (ceilDepth15 depth)).1.filter
          (fun t => !(hist.contains t.id)) with
      | nil =>
          rw [researchLoop_succ_nil ops env registry query analysis depth fuel iteration cq
            ar asrc hist tr hsel]
          exact ⟨Nat.le_add_right _ _, Nat.le_add_right _ _⟩
      | cons t0 ts =>
          rw [researchLoop_succ_cons ops env registry query analysis depth fuel iteration cq
            ar asrc hist tr t0 ts hsel]
          simp only
          cases hb : (analyzeGaps env query (ar ++ _)).hasGaps with
          | true =>
              cases ho : (analyzeGaps env query (ar ++ _)).followUpQuery with
              | some fq =>
                  constructor
                  · exact le_trans (ih _ _ _ _ _ _).1 (by omega)
                  · refine le_trans (ih _ _ _ _ _ _).2 ?_
                    simp only [List.length_append, List.length_cons, List.length_nil]
                    omega
              | none =>
                  constructor
                  · exact Nat.le_add_right _ _
                  · show (tr ++ [RoundRecord.mk _]).length ≤ tr.length + (fuel + 1)
                    simp only [List.length_append, List.length_cons, List.length_nil]
                    omega
          | false =>
              constructor
              · exact Nat.le_add_right _ _
              · show (tr ++ [RoundRecord.mk _]).length ≤ tr.length + (fuel + 1)
                simp only [List.length_append, List.length_cons, List.length_nil]
                omega

/-- Amended claim C2: the number of tool-executing rounds of a research
run never exceeds `depth`; the `iterations` field of the returned
metadata equals the final iteration counter plus one, which can exceed
`depth` by one (it is incremented before the depth check when the gap
analysis produces a follow-up), but never more: `iterations ≤ depth+1`. -/
theorem c2_rounds_iterations_bound (ops : StringOps) (env : Env) (registry : List ToolCard)
    (query : String) (depth : Int) :
    (orchestrateResearch ops env registry query depth).trace.length ≤ depth.toNat
      ∧ (orchestrateResearch ops env registry query depth).iterations ≤ depth.toNat + 1 := by
  unfold orchestrateResearch
  simp only
  have h := researchLoop_counts ops env registry query (analyzeQuery ops env query) depth
    depth.toNat 0 query [] [] [] []
  constructor
  · have := h.2
    simpa using this
  · have := h.1
    omega

/-- Concrete tools for counterexamples and witnesses. -/
def tA : ToolCard := { id := "a", name := "Tool A", relevanceScore := fun _ _ => 0 }

def tB : ToolCard := { id := "b", name := "Tool B", relevanceScore := fun _ _ => 0 }

/-- A concrete query analysis for witnesses. -/
def anaW : QueryAnalysis :=
  { originalQuery := "q", intent := "search", entities := [], constraints := []
    queryTypes := [], extractedUrls := [], extractedYouTubeUrls := [], confidence := 0 }

/-- Environment whose gap analysis always reports a gap with a
follow-up query. -/
def gapEnv : Env :=
  { failEnv with
    selectReply := fun _ _ _ => some { selectedTools := ["a"], reasoning := none }
    gapsReply := fun _ _ => some { hasGaps := true, followUpQuery := some "q2" } }

/-- Counterexample to claim C2 as stated: at `depth = 1`, with the gap
analysis reporting a gap in the (single) round, the returned
metadata's `iterations` field is 2 > depth. -/
theorem c2_counterexample :
    (orchestrateResearch trivOps gapEnv [tA] "q" 1).iterations = 2
      ∧ ¬((orchestrateResearch trivOps gapEnv [tA] "q" 1).iterations ≤ 1) := by
  have h2 : (orchestrateResearch trivOps gapEnv [tA] "q" 1).iterations = 2 := rfl
  exact ⟨h2, by rw [h2]; omega⟩

/-- Claim C10: with `depth ≤ 0` (the entry point documents 1–5 but does
not validate), the round loop never runs: no tool is selected or
executed (empty trace), the sources list is empty, confidence is 0, no
tool id is recorded as used — yet the metadata reports
`iterations = 1`. -/
theorem c10_nonpositive_depth (ops : StringOps) (env : Env) (registry : List ToolCard)
    (query : String) (depth : Int) (h : depth ≤ 0) :
    (orchestrateResearch ops env registry query depth).trace = []
      ∧ (orchestrateResearch ops env registry query depth).sources = []
      ∧ (orchestrateResearch ops env registry query depth).confidence = 0
      ∧ (orchestrateResearch ops env registry query depth).toolsUsed = []
      ∧ (orchestrateResearch ops env registry query depth).iterations = 1 := by
  have h0 : depth.toNat = 0 := Int.toNat_of_nonpos h
  unfold orchestrateResearch
  simp [h0, researchLoop_zero, calculateConfidence]

/-- Witness for C10 at `depth = 0`. -/
theorem c10_witness :
    (orchestrateResearch trivOps failEnv [] "q" 0).trace = []
      ∧ (orchestrateResearch trivOps failEnv [] "q" 0).sources = []
      ∧ (orchestrateResearch trivOps failEnv [] "q" 0).confidence = 0
      ∧ (orchestrateResearch trivOps failEnv [] "q" 0).toolsUsed = []
      ∧ (orchestrateResearch trivOps failEnv [] "q" 0).iterations = 1 :=
  c10_nonpositive_depth trivOps failEnv [] "q" 0 (le_refl 0)

/-! ### C7: analyzeGaps is fail-closed -/

/-- Claim C7: if the reasoning-service call made by `analyzeGaps` fails
(throws, or returns unparseable output — both are `gapsReply = none`),
`analyzeGaps` returns `hasGaps = false` with no follow-up query; and
consequently, when every gap-analysis call fails, the orchestration
loop stops after at most one further tool-executing round. -/
theorem c7_analyzeGaps_fail_closed (env : Env) :
    (∀ q rs, env.gapsReply q rs = none →
      analyzeGaps env q rs = { hasGaps := false, followUpQuery := none })
    ∧ ((∀ q rs, env.gapsReply q rs = none) →
        ∀ (ops : StringOps) (registry : List ToolCard) (query : String)
          (analysis : QueryAnalysis) (depth : Int) (fuel iteration : Nat) (cq : String)
          (ar : List ToolResult) (asrc : List Source) (hist : List String)
          (tr : List RoundRecord),
          (researchLoop ops env registry query analysis depth
              fuel iteration cq ar asrc hist tr).trace.length ≤ tr.length + 1) := by
  constructor
  · intro q rs h
    unfold analyzeGaps
    rw [h]
  · intro hall ops registry query analysis depth fuel iteration cq ar asrc hist tr
    have hg : ∀ rs, analyzeGaps env query rs = { hasGaps := false, followUpQuery := none } := by
      intro rs
      unfold analyzeGaps
      rw [hall]
    cases fuel with
    | zero =>
        rw [researchLoop_zero]
        exact Nat.le_succ _
    | succ fuel =>
        cases hsel : (selectBestTools registry env cq analysis (ceilDepth15 depth)).1.filter
            (fun t => !(hist.contains t.id)) with
        | nil =>
            rw [researchLoop_succ_nil ops env registry query analysis depth fuel iteration cq
              ar asrc hist tr hsel]
            exact Nat.le_succ _
        | cons t0 ts =>
            rw [researchLoop_succ_cons ops env registry query analysis depth fuel iteration cq
              ar asrc hist tr t0 ts hsel]
            simp only [hg]
            simp

/-- Witness for C7. -/
theorem c7_witness :
    analyzeGaps failEnv "q" [] = { hasGaps := false, followUpQuery := none }
      ∧ (researchLoop trivOps failEnv [] "q" anaW 3 3 0 "q" [] [] [] []).trace.length
          ≤ ([] : List RoundRecord).length + 1 :=
  ⟨(c7_analyzeGaps_fail_closed failEnv).1 "q" [] rfl,
   (c7_analyzeGaps_fail_closed failEnv).2 (fun _ _ => rfl) trivOps [] "q" anaW 3 3 0 "q"
     [] [] [] []⟩

/-! ### C6: assessRelevance fail-open -/

/-- Amended claim C6: `assessRelevance` returns exactly the original
result list when the reasoning-service call throws, or when the parsed
reply is a non-null non-iterable value (number, boolean, object — the
`Set` construction throws); the resultProcessor variant also returns
the original list on any schema-validation failure.  However, a parsed
`null` reply makes `new Set(null)` an *empty* set (ECMA-262), dropping
every result, and an iterable reply that is not an index list (e.g. a
JSON string) is likewise treated as a successful reply and filters the
results — see the counterexample. -/
theorem c6_assessRelevance_fail_open (env : Env) (q : String) (rs : List ToolResult) :
    (env.assessReply q rs = .throw → assessRelevance env q rs = rs)
    ∧ (∀ v, env.assessReply q rs = .reply v → jsonIterate v = none →
        assessRelevance env q rs = rs)
    ∧ (env.assessReply q rs = .reply .null → assessRelevance env q rs = [])
    ∧ (env.arrayReply q rs = none → assessRelevanceProcessor env q rs = rs) := by
  refine ⟨?_, ?_, ?_, ?_⟩
  · intro h
    unfold assessRelevance
    rw [h]
  · intro v hv hiter
    unfold assessRelevance
    rw [hv]
    simp [hiter]
  · intro h
    unfold assessRelevance
    rw [h]
    simp [jsonIterate, jsonHasIndex]
  · intro h
    unfold assessRelevanceProcessor
    rw [h]

/-- Environment whose relevance-assessment reply parses to the JSON
string `"ab"` — not an index list, but iterable. -/
def strEnv : Env :=
  { failEnv with assessReply := fun _ _ => .reply (.str "ab") }

/-- A concrete successful tool result. -/
def r0 : ToolResult :=
  { success := true, data := .null, error := none, metadata := default }

/-- Counterexample to claim C6 as stated: a reply that cannot be parsed
as the expected index list (the JSON string `"ab"`) does **not** make
`assessRelevance` return the original list — `new Set("ab")` succeeds
(iterating characters), no index matches, and every result is
filtered out. -/
theorem c6_counterexample :
    assessRelevance strEnv "q" [r0] = []
      ∧ assessRelevance strEnv "q" [r0] ≠ [r0] := by
  have h : assessRelevance strEnv "q" [r0] = [] := rfl
  refine ⟨h, ?_⟩
  rw [h]
  intro hcontra
  exact List.noConfusion hcontra

/-- Environment whose relevance-assessment reply parses to a JSON
number (not iterable: `new Set(5)` throws). -/
def numEnv : Env :=
  { failEnv with assessReply := fun _ _ => .reply (.num 5) }

/-- Environment whose relevance-assessment reply parses to JSON
`null` (`new Set(null)` is the empty set). -/
def nullEnv : Env :=
  { failEnv with assessReply := fun _ _ => .reply .null }

/-- Witness for C6, exercising all four conjuncts. -/
theorem c6_witness :
    assessRelevance failEnv "q" [r0] = [r0]
      ∧ assessRelevance numEnv "q" [r0] = [r0]
      ∧ assessRelevance nullEnv "q" [r0] = []
      ∧ assessRelevanceProcessor failEnv "q" [r0] = [r0] :=
  ⟨(c6_assessRelevance_fail_open failEnv "q" [r0]).1 rfl,
   (c6_assessRelevance_fail_open numEnv "q" [r0]).2.1 (.num 5) rfl rfl,
   (c6_assessRelevance_fail_open nullEnv "q" [r0]).2.2.1 rfl,
   (c6_assessRelevance_fail_open failEnv "q" [r0]).2.2.2 rfl⟩

end Research

namespace Research

/-! ### C4: tool-selection bounds -/

/-- Amended claim C4: every tool returned by `selectBestTools` belongs
to the registry, on both paths; the score-based fallback path returns
at most `maxTools` tools; but on the reasoning-service path the count
is bounded only by the number of ids in the service's reply — the code
validates ids against the registry without clamping the reply to
`maxTools` (see the counterexample). -/
theorem c4_selection_bounds (registry : List ToolCard) (env : Env) (query : String)
    (analysis : QueryAnalysis) (maxTools : Nat) :
    (∀ t ∈ (selectBestTools registry env query analysis maxTools).1, t ∈ registry)
    ∧ (env.selectReply query analysis maxTools = none →
        (selectBestTools registry env query analysis maxTools).1.length ≤ maxTools)
    ∧ (∀ reply, env.selectReply query analysis maxTools = some reply →
        (selectBestTools registry env query analysis maxTools).1.length
          ≤ max maxTools reply.selectedTools.length) := by
  have hfb_mem : ∀ t ∈ ((scoreAndSort registry query analysis).take maxTools).map (·.1),
      t ∈ registry := by
    intro t ht
    rcases List.mem_map.1 ht with ⟨p, hp, hpt⟩
    have hp2 : p ∈ scoreAndSort registry query analysis := List.mem_of_mem_take hp
    have hp3 : p ∈ registry.map fun tool => (tool, tool.relevanceScore query analysis) := by
      rw [scoreAndSort] at hp2
      exact mem_sortBy.1 hp2
    rcases List.mem_map.1 hp3 with ⟨tool, htool, hq⟩
    rw [← hpt, ← hq]
    exact htool
  have hfb_len : (((scoreAndSort registry query analysis).take maxTools).map (·.1)).length
      ≤ maxTools := by
    rw [List.length_map, List.length_take]
    exact min_le_left _ _
  have hsel_mem : ∀ (ids : List String),
      ∀ t ∈ ids.filterMap (fun id => registry.find? fun tool => tool.id = id),
        t ∈ registry := by
    intro ids t ht
    rcases List.mem_filterMap.1 ht with ⟨id, _, hfind⟩
    exact List.mem_of_find?_eq_some hfind
  refine ⟨?_, ?_, ?_⟩
  · intro t ht
    unfold selectBestTools at ht
    cases hrep : env.selectReply query analysis maxTools with
    | none =>
        rw [hrep] at ht
        simp only at ht
        exact hfb_mem t ht
    | some reply =>
        rw [hrep] at ht
        simp only at ht
        cases hfm : reply.selectedTools.filterMap
            (fun id => registry.find? fun tool => tool.id = id) with
        | nil =>
            rw [hfm] at ht
            simp only at ht
            exact hfb_mem t ht
        | cons x xs =>
            rw [hfm] at ht
            simp only at ht
            exact hsel_mem reply.selectedTools t (hfm ▸ ht)
  · intro hrep
    unfold selectBestTools
    rw [hrep]
    simp only
    exact hfb_len
  · intro reply hrep
    unfold selectBestTools
    rw [hrep]
    simp only
    cases hfm : reply.selectedTools.filterMap
        (fun id => registry.find? fun tool => tool.id = id) with
    | nil =>
        simp only
        exact le_trans hfb_len (le_max_left _ _)
    | cons x xs =>
        simp only
        have hlen : (x :: xs).length ≤ reply.selectedTools.length := by
          rw [← hfm]
          exact List.length_filterMap_le _ _
        exact le_trans hlen (le_max_right _ _)

/-- Environment whose tool-selection reply names two valid tools. -/
def selEnv : Env :=
  { failEnv with
    selectReply := fun _ _ _ => some { selectedTools := ["a", "b"], reasoning := none } }

/-- Counterexample to claim C4 as stated: with `maxTools = 1` and a
reasoning-service reply naming two registry tools, `selectBestTools`
returns 2 tools — the reasoning path does not enforce the `maxTools`
bound. -/
theorem c4_counterexample :
    (selectBestTools [tA, tB] selEnv "q" anaW 1).1.length = 2
      ∧ ¬((selectBestTools [tA, tB] selEnv "q" anaW 1).1.length ≤ 1) := by
  have h2 : (selectBestTools [tA, tB] selEnv "q" anaW 1).1.length = 2 := rfl
  exact ⟨h2, by rw [h2]; omega⟩

/-- Witness for C4, exercising all three conjuncts. -/
theorem c4_witness :
    (∀ t ∈ (selectBestTools [tA] failEnv "q" anaW 3).1, t ∈ [tA])
      ∧ (selectBestTools [tA] failEnv "q" anaW 3).1.length ≤ 3
      ∧ (selectBestTools [tA, tB] selEnv "q" anaW 1).1.length
          ≤ max 1 (["a", "b"] : List String).length :=
  ⟨(c4_selection_bounds [tA] failEnv "q" anaW 3).1,
   (c4_selection_bounds [tA] failEnv "q" anaW 3).2.1 rfl,
   (c4_selection_bounds [tA, tB] selEnv "q" anaW 1).2.2
     { selectedTools := ["a", "b"], reasoning := none } rfl⟩

end Research

namespace Research

/-! ### C5: no tool-id reuse across rounds -/

/-- The tool ids a round executed. -/
def recIds (rec : RoundRecord) : List String :=
  rec.executed.map Prod.fst

theorem newTool_id_not_in_history {hist : List String} {selected : List ToolCard}
    {t : ToolCard} (h : t ∈ selected.filter fun t => !(hist.contains t.id)) :
    t.id ∉ hist := by
  have h2 := List.mem_filter.1 h
  have h3 : hist.contains t.id = false := by
    cases hc : hist.contains t.id with
    | false => rfl
    | true =>
        have := h2.2
        rw [hc] at this
        simp at this
  intro hmem
  have h4 : hist.contains t.id = true := by
    have : hist.elem t.id = true := List.elem_iff.2 hmem
    simpa [List.contains] using this
  rw [h4] at h3
  exact Bool.noConfusion h3

theorem recIds_round (t0 : ToolCard) (ts : List ToolCard)
    (f : ToolCard → ToolParams) :
    recIds ⟨(t0 :: ts).map fun t => (t.id, f t)⟩ = (t0 :: ts).map (·.id) := by
  simp [recIds, List.map_map, Function.comp]

/-- Loop invariant: trace rounds have pairwise-disjoint executed tool
ids, and every executed id is recorded in the history. -/
theorem researchLoop_trace_disjoint (ops : StringOps) (env : Env) (registry : List ToolCard)
    (query : String) (analysis : QueryAnalysis) (depth : Int) :
    ∀ (fuel iteration : Nat) (cq : String) (ar : List ToolResult) (asrc : List Source)
      (hist : List String) (tr : List RoundRecord),
      List.Pairwise (fun a b => ∀ s ∈ recIds a, s ∉ recIds b) tr →
      (∀ rec ∈ tr, ∀ s ∈ recIds rec, s ∈ hist) →
      (List.Pairwise (fun a b => ∀ s ∈ recIds a, s ∉ recIds b)
          (researchLoop ops env registry query analysis depth
            fuel iteration cq ar asrc hist tr).trace
        ∧ ∀ rec ∈ (researchLoop ops env registry query analysis depth
            fuel iteration cq ar asrc hist tr).trace,
            ∀ s ∈ recIds rec, s ∈ (researchLoop ops env registry query analysis depth
              fuel iteration cq ar asrc hist tr).history) := by
  intro fuel
  induction fuel with
  | zero =>
      intro iteration cq ar asrc hist tr hpw hsub
      rw [researchLoop_zero]
      exact ⟨hpw, hsub⟩
  | succ fuel ih =>
      intro iteration cq ar asrc hist tr hpw hsub
      cases hselt : (selectBestTools registry env cq analysis (ceilDepth15 depth)).1.filter
          (fun t => !(hist.contains t.id)) with
      | nil =>
          rw [researchLoop_succ_nil ops env registry query analysis depth fuel iteration cq
            ar asrc hist tr hselt]
          exact ⟨hpw, hsub⟩
      | cons t0 ts =>
          rw [researchLoop_succ_cons ops env registry query analysis depth fuel iteration cq
            ar asrc hist tr t0 ts hselt]
          simp only
          -- ids executed this round are fresh w.r.t. the history
          have hfresh : ∀ s ∈ (t0 :: ts).map (·.id), s ∉ hist := by
            intro s hs
            rcases List.mem_map.1 hs with ⟨t, htmem, hts⟩
            have : t ∈ (selectBestTools registry env cq analysis (ceilDepth15 depth)).1.filter
                (fun t => !(hist.contains t.id)) := hselt ▸ htmem
            exact hts ▸ newTool_id_not_in_history this
          have hpw2 : List.Pairwise (fun a b => ∀ s ∈ recIds a, s ∉ recIds b)
              (tr ++ [RoundRecord.mk ((t0 :: ts).map fun t =>
                (t.id, buildToolParams
                  (optimizeQueriesForTools env cq analysis (t0 :: ts) t.id) analysis))]) := by
            rw [List.pairwise_append]
            refine ⟨hpw, List.pairwise_singleton _ _, ?_⟩
            intro a ha b hb s hsa
            rw [List.mem_singleton.1 hb, recIds_round]
            intro hsb
            exact hfresh s hsb (hsub a ha s hsa)
          have hsub2 : ∀ rec ∈ (tr ++ [RoundRecord.mk ((t0 :: ts).map fun t =>
                (t.id, buildToolParams
                  (optimizeQueriesForTools env cq analysis (t0 :: ts) t.id) analysis))]),
              ∀ s ∈ recIds rec,
                s ∈ addUsed hist ((t0 :: ts).map (·.id)) := by
            intro rec hrec s hs
            rcases List.mem_append.1 hrec with hrec | hrec
            · exact mem_addUsed_of_mem_left _ _ _ (hsub rec hrec s hs)
            · rw [List.mem_singleton.1 hrec, recIds_round] at hs
              exact mem_addUsed_of_mem_right _ _ _ hs
          cases hb : (analyzeGaps env query (ar ++ _)).hasGaps with
          | true =>
              cases ho : (analyzeGaps env query (ar ++ _)).followUpQuery with
              | some fq => exact ih _ _ _ _ _ _ hpw2 hsub2
              | none => exact ⟨hpw2, hsub2⟩
          | false => exact ⟨hpw2, hsub2⟩

/-- Claim C5: within one research run no tool id is executed in more
than one round (the executed id sets of the rounds are pairwise
disjoint), and a round whose selection yields zero not-yet-used tools
terminates the run immediately, executing no tool calls and leaving the
state untouched. -/
theorem c5_no_tool_reuse_across_rounds (ops : StringOps) (env : Env)
    (registry : List ToolCard) (query : String) (depth : Int) :
    List.Pairwise (fun a b => ∀ s ∈ recIds a, s ∉ recIds b)
      (orchestrateResearch ops env registry query depth).trace
    ∧ (∀ (analysis : QueryAnalysis) (fuel iteration : Nat) (cq : String)
        (ar : List ToolResult) (asrc : List Source) (hist : List String)
        (tr : List RoundRecord),
        (selectBestTools registry env cq analysis (ceilDepth15 depth)).1.filter
          (fun t => !(hist.contains t.id)) = [] →
        researchLoop ops env registry query analysis depth (fuel + 1) iteration cq
          ar asrc hist tr
          = { iteration := iteration, allResults := ar, allSources := asrc,
              history := hist, trace := tr }) := by
  constructor
  · unfold orchestrateResearch
    simp only
    exact (researchLoop_trace_disjoint ops env registry query _ depth depth.toNat 0 query
      [] [] [] [] List.Pairwise.nil (by intro rec hrec; simp at hrec)).1
  · intro analysis fuel iteration cq ar asrc hist tr h
    exact researchLoop_succ_nil ops env registry query analysis depth fuel iteration cq
      ar asrc hist tr h

/-- Witness for C5: a run terminating immediately on tool exhaustion
(empty registry), leaving the state untouched. -/
theorem c5_witness :
    researchLoop trivOps failEnv [] "q" anaW 1 1 0 "q" [] [] [] []
      = { iteration := 0, allResults := [], allSources := [], history := [], trace := [] } :=
  (c5_no_tool_reuse_across_rounds trivOps failEnv [] "q" 1).2 anaW 0 0 "q" [] [] [] [] rfl

/-! ### C9: deterministically-extracted fields override the optimizer -/

/-- The overlay property of the parameters passed to a tool: when the
analysis extracted at least one URL, the `url` field is the first one;
when it extracted at least one media link, the `videoId` field is the
id derived from the first one — regardless of the optimizer reply. -/
def ParamsOverlay (analysis : QueryAnalysis) (p : ToolParams) : Prop :=
  (∀ u us, analysis.extractedUrls = u :: us → p.url = some u)
  ∧ (∀ y ys, analysis.extractedYouTubeUrls = y :: ys →
      p.videoId = (y.splitOn "v=").get? 1)

theorem buildToolParams_overlay (opt : Option OptParams) (analysis : QueryAnalysis) :
    ParamsOverlay analysis (buildToolParams opt analysis) := by
  constructor
  · intro u us h
    unfold buildToolParams
    simp [h]
  · intro y ys h
    unfold buildToolParams
    simp [h]

theorem researchLoop_params_overlay (ops : StringOps) (env : Env)
    (registry : List ToolCard) (query : String) (analysis : QueryAnalysis) (depth : Int) :
    ∀ (fuel iteration : Nat) (cq : String) (ar : List ToolResult) (asrc : List Source)
      (hist : List String) (tr : List RoundRecord),
      (∀ rec ∈ tr, ∀ call ∈ rec.executed, ParamsOverlay analysis call.2) →
      ∀ rec ∈ (researchLoop ops env registry query analysis depth
          fuel iteration cq ar asrc hist tr).trace,
        ∀ call ∈ rec.executed, ParamsOverlay analysis call.2 := by
  intro fuel
  induction fuel with
  | zero =>
      intro iteration cq ar asrc hist tr htr
      rw [researchLoop_zero]
      exact htr
  | succ fuel ih =>
      intro iteration cq ar asrc hist tr htr
      cases hselt : (selectBestTools registry env cq analysis (ceilDepth15 depth)).1.filter
          (fun t => !(hist.contains t.id)) with
      | nil =>
          rw [researchLoop_succ_nil ops env registry query analysis depth fuel iteration cq
            ar asrc hist tr hselt]
          exact htr
      | cons t0 ts =>
          rw [researchLoop_succ_cons ops env registry query analysis depth fuel iteration cq
            ar asrc hist tr t0 ts hselt]
          simp only
          have htr2 : ∀ rec ∈ tr ++ [RoundRecord.mk ((t0 :: ts).map fun t =>
                (t.id, buildToolParams
                  (optimizeQueriesForTools env cq analysis (t0 :: ts) t.id) analysis))],
              ∀ call ∈ rec.executed, ParamsOverlay analysis call.2 := by
            intro rec hrec call hcall
            rcases List.mem_append.1 hrec with hrec | hrec
            · exact htr rec hrec call hcall
            · rw [List.mem_singleton.1 hrec] at hcall
              rcases List.mem_map.1 hcall with ⟨t, _, ht⟩
              rw [← ht]
              exact buildToolParams_overlay _ analysis
          cases hb : (analyzeGaps env query (ar ++ _)).hasGaps with
          | true =>
              cases ho : (analyzeGaps env query (ar ++ _)).followUpQuery with
              | some fq => exact ih _ _ _ _ _ _ htr2
              | none => exact htr2
          | false => exact htr2

/-- Claim C9: for every tool call a research run executes, when the
query analysis extracted at least one URL the params carry the first
extracted URL in the `url` field, and when it extracted at least one
media link the params carry the id derived from the first one
(`split('v=')[1]`) in the `videoId` field — regardless of the
optimizer's reply for that tool: the extracted fields are spread after
the optimized params and always override them. -/
theorem c9_extracted_fields_override (ops : StringOps) (env : Env)
    (registry : List ToolCard) (query : String) (depth : Int) :
    ∀ rec ∈ (orchestrateResearch ops env registry query depth).trace,
      ∀ call ∈ rec.executed, ParamsOverlay (analyzeQuery ops env query) call.2 := by
  unfold orchestrateResearch
  simp only
  exact researchLoop_params_overlay ops env registry query _ depth depth.toNat 0 query
    [] [] [] [] (by intro rec hrec; simp at hrec)

/-- Regex engine whose link extraction finds one URL. -/
def urlOps : StringOps :=
  { trivOps with matchList := fun _ _ => ["http://e"] }

/-- Environment that selects tool `a` and otherwise fails. -/
def env9 : Env :=
  { failEnv with
    selectReply := fun _ _ _ => some { selectedTools := ["a"], reasoning := none } }

/-- The parameter object tool `a` receives in the witness run
(`"http://e"` contains no `"v="`, so the derived video id is absent). -/
def p9W : ToolParams :=
  { query := some "q", url := some "http://e"
    videoId := ("http://e".splitOn "v=").get? 1 }

/-- Witness for C9: a concrete one-round run in which the overlay is
visible in the executed call. -/
theorem c9_witness :
    (analyzeQuery urlOps env9 "q").extractedUrls = ["http://e"]
      ∧ (analyzeQuery urlOps env9 "q").extractedYouTubeUrls = ["http://e"]
      ∧ RoundRecord.mk [("a", p9W)] ∈ (orchestrateResearch urlOps env9 [tA] "q" 1).trace
      ∧ p9W.url = some "http://e"
      ∧ p9W.videoId = ("http://e".splitOn "v=").get? 1 := by
  have htr : (orchestrateResearch urlOps env9 [tA] "q" 1).trace
      = [RoundRecord.mk [("a", p9W)]] := rfl
  have hmem : RoundRecord.mk [("a", p9W)] ∈ (orchestrateResearch urlOps env9 [tA] "q" 1).trace := by
    rw [htr]
    exact List.mem_singleton.2 rfl
  have hover := c9_extracted_fields_override urlOps env9 [tA] "q" 1 _ hmem ("a", p9W)
    (List.mem_singleton.2 rfl)
  exact ⟨rfl, rfl, hmem, hover.1 "http://e" [] rfl, hover.2 "http://e" [] rfl⟩

end Research

namespace Research

/-! ### C3: source-id ordering and uniqueness -/

theorem pairwise_filterMap_of {α β : Type _} {R : α → α → Prop} {S : β → β → Prop}
    (g : α → Option β)
    (hg : ∀ a b x y, R a b → g a = some x → g b = some y → S x y) :
    ∀ l : List α, List.Pairwise R l → List.Pairwise S (l.filterMap g) := by
  intro l
  induction l with
  | nil => intro h; simp
  | cons a l ih =>
      intro h
      cases h with
      | cons ha hl =>
          rw [List.filterMap_cons]
          cases hga : g a with
          | none => exact ih hl
          | some x =>
              refine List.Pairwise.cons ?_ (ih hl)
              intro y hy
              rcases List.mem_filterMap.1 hy with ⟨b, hb, hgb⟩
              exact hg a b x y (ha b hb) hga hgb

theorem pairwise_flatten_of {β : Type _} {R : β → β → Prop} :
    ∀ L : List (List β), (∀ l ∈ L, List.Pairwise R l) →
      List.Pairwise (fun l₁ l₂ => ∀ x ∈ l₁, ∀ y ∈ l₂, R x y) L →
      List.Pairwise R L.flatten := by
  intro L
  induction L with
  | nil => intro _ _; simp
  | cons l L ih =>
      intro hall hpw
      cases hpw with
      | cons hl hL =>
          rw [List.flatten_cons, List.pairwise_append]
          refine ⟨hall l (by simp), ih (fun l2 hl2 => hall l2 (by simp [hl2])) hL, ?_⟩
          intro x hx y hy
          rcases List.mem_flatten.1 hy with ⟨l2, hl2, hyl⟩
          exact hl l2 hl2 x hx y hyl

theorem sourceEntriesOf_id_bounds (index : Nat) (result : ToolResult) (tn ti : String) :
    ∀ src ∈ sourceEntriesOf index result tn ti,
      index * 100 < src.id ∧ src.id ≤ index * 100 + resultItemCount result := by
  intro src hsrc
  unfold sourceEntriesOf at hsrc
  split at hsrc
  · simp at hsrc
  · split at hsrc
    · rename_i items heq
      rcases List.mem_filterMap.1 hsrc with ⟨p, hp, hpg⟩
      have hb := mem_withIdx_bounds hp
      have hb2 : p.1 < items.length := by
        have := hb.2
        omega
      have hcount : resultItemCount result = items.length := by
        simp [resultItemCount, heq]
      split at hpg
      · have h2 := Option.some.inj hpg
        rw [← h2, hcount]
        show index * 100 < index * 100 + p.1 + 1
          ∧ index * 100 + p.1 + 1 ≤ index * 100 + items.length
        omega
      · exact absurd hpg (by simp)
    · rename_i item heq
      split at hsrc
      · have h1 := List.mem_singleton.1 hsrc
        have hcount : resultItemCount result = 1 := by
          simp [resultItemCount, heq]
        rw [h1, hcount]
        show index * 100 < index * 100 + 1 ∧ index * 100 + 1 ≤ index * 100 + 1
        omega
      · simp at hsrc
    · simp at hsrc

theorem sourceEntriesOf_pairwise (index : Nat) (result : ToolResult) (tn ti : String) :
    List.Pairwise (fun a b : Source => a.id < b.id)
      (sourceEntriesOf index result tn ti) := by
  unfold sourceEntriesOf
  split
  · simp
  · split
    · apply pairwise_filterMap_of _ ?_ _ (pairwise_fst_lt_withIdx 0 _)
      intro a b x y hab hga hgb
      split at hga
      · split at hgb
        · have hx := Option.some.inj hga
          have hy := Option.some.inj hgb
          rw [← hx, ← hy]
          show index * 100 + a.1 + 1 < index * 100 + b.1 + 1
          omega
        · exact absurd hgb (by simp)
      · exact absurd hga (by simp)
    · split
      · exact List.pairwise_singleton _ _
      · simp
    · simp

theorem mem_withIdx_snd {l : List α} : ∀ p ∈ withIdx 0 l, p.2 ∈ l := by
  intro p hp
  have h := List.mem_map_of_mem Prod.snd hp
  rwa [withIdx_map_snd] at h

/-- The unsorted rows are already strictly increasing in id when every
result contributes at most 100 items. -/
theorem sourceRows_pairwise (results : List ToolResult) (tools : List ToolCard)
    (hbound : ∀ r ∈ results, resultItemCount r ≤ 100) :
    List.Pairwise (fun a b : Source => a.id < b.id) (sourceRows results tools) := by
  unfold sourceRows
  apply pairwise_flatten_of
  · intro l hl
    rcases List.mem_map.1 hl with ⟨p, hp, hpl⟩
    rw [← hpl]
    exact sourceEntriesOf_pairwise _ _ _ _
  · rw [List.pairwise_map]
    have hpw := List.Pairwise.and_mem.1 (pairwise_fst_lt_withIdx 0 results)
    refine hpw.imp ?_
    intro p q hpq x hx y hy
    rcases hpq with ⟨hpmem, hqmem, hlt⟩
    have hxb := sourceEntriesOf_id_bounds _ _ _ _ x hx
    have hyb := sourceEntriesOf_id_bounds _ _ _ _ y hy
    have hxr : resultItemCount p.2 ≤ 100 := hbound _ (mem_withIdx_snd p hpmem)
    omega

theorem extractSources_perm (results : List ToolResult) (tools : List ToolCard) :
    List.Perm (extractSources results tools) (sourceRows results tools) := by
  unfold extractSources
  exact perm_sortBy _ _

/-- Amended claim C3: within one `extractSources` call the source ids
are sorted ascending; when additionally every result contributes at
most 100 items (the `index*100 + itemIndex + 1` scheme's capacity) they
are strictly increasing, hence pairwise unique.  Across rounds the
final list is the concatenation of per-round lists, and ids repeat
(see the counterexample). -/
theorem c3_extractSources_ids_sorted (results : List ToolResult) (tools : List ToolCard) :
    List.Pairwise (· ≤ ·) ((extractSources results tools).map (·.id))
    ∧ ((∀ r ∈ results, resultItemCount r ≤ 100) →
        List.Pairwise (· < ·) ((extractSources results tools).map (·.id))) := by
  have hasym : ∀ a b : Source, decide (a.id < b.id) = true → decide (b.id < a.id) = false := by
    intro a b h
    simp at h ⊢
    omega
  have hnegtrans : ∀ a b c : Source, decide (a.id < b.id) = false →
      decide (b.id < c.id) = false → decide (a.id < c.id) = false := by
    intro a b c h1 h2
    simp at h1 h2 ⊢
    omega
  have hsorted : List.Pairwise (· ≤ ·) ((extractSources results tools).map (·.id)) := by
    rw [List.pairwise_map]
    have h := pairwise_sortBy (fun a b : Source => decide (a.id < b.id)) hasym hnegtrans
      (sourceRows results tools)
    refine h.imp ?_
    intro a b hab
    simp at hab
    exact hab
  refine ⟨hsorted, ?_⟩
  intro hbound
  have hrows := sourceRows_pairwise results tools hbound
  have hnodup_rows : ((sourceRows results tools).map (·.id)).Nodup := by
    show List.Pairwise (· ≠ ·) _
    rw [List.pairwise_map]
    exact hrows.imp fun h => Nat.ne_of_lt h
  have hperm := (extractSources_perm results tools).map (·.id)
  have hnodup : ((extractSources results tools).map (·.id)).Nodup :=
    hperm.nodup_iff.2 hnodup_rows
  have hand := hsorted.and hnodup
  exact hand.imp fun h => lt_of_le_of_ne h.1 h.2

/-- A concrete successful tool result carrying one source record. -/
def r1 : ToolResult :=
  { success := true, data := .record { url := some "u", title := some "t" },
    error := none, metadata := default }

/-- Witness for C3's amended theorem on a concrete extraction. -/
theorem c3_witness :
    (∀ r ∈ [r1], resultItemCount r ≤ 100)
      ∧ List.Pairwise (· < ·) ((extractSources [r1] [tA]).map (·.id)) :=
  ⟨by decide, (c3_extractSources_ids_sorted [r1] [tA]).2 (by decide)⟩

/-- Environment driving a two-round run: round one selects tool `a`,
the gap analysis over one result demands a follow-up, round two selects
tool `b`, and every execution returns the same single-record success. -/
def dupEnv : Env :=
  { failEnv with
    selectReply := fun q _ _ =>
      if q = "q" then some { selectedTools := ["a"], reasoning := none }
      else some { selectedTools := ["b"], reasoning := none }
    executeAttempt := fun _ _ _ => .ok r1
    gapsReply := fun _ rs =>
      if rs.length = 1 then some { hasGaps := true, followUpQuery := some "q2" }
      else some { hasGaps := false, followUpQuery := none } }

/-- Counterexample to claim C3 as stated: a two-round run emits source
id 1 in each round, so the final `sources` list has ids `[1, 1]` —
neither pairwise unique nor strictly ascending across rounds. -/
theorem c3_counterexample :
    ((orchestrateResearch trivOps dupEnv [tA, tB] "q" 2).sources.map (·.id)) = [1, 1]
      ∧ ¬ ((orchestrateResearch trivOps dupEnv [tA, tB] "q" 2).sources.map (·.id)).Nodup := by
  have h : ((orchestrateResearch trivOps dupEnv [tA, tB] "q" 2).sources.map (·.id))
      = [1, 1] := rfl
  refine ⟨h, ?_⟩
  rw [h]
  decide

/-! ### C8: the resultProcessor confidence formula -/

/-- Claim C8: the resultProcessor confidence score is 0 when no result
succeeded; otherwise it equals the fixed weighted blend
`0.4·sourceQuality + 0.4·contentQuality + 0.2·citationQuality`
computed over the successful subset of the results and clamped to at
most 1; it depends on the results only through the successful subset,
and never exceeds 1. -/
theorem c8_confidence_formula (ops : StringOps) (results : List ToolResult)
    (analysis : QueryAnalysis) (ans : String) :
    (results.filter (·.success) = [] →
      calculateConfidenceProcessor ops results analysis ans = 0)
    ∧ (results.filter (·.success) ≠ [] →
        calculateConfidenceProcessor ops results analysis ans
          = min (0.4 * evaluateSourceQuality (results.filter (·.success))
              + 0.4 * evaluateContentQuality ops ans analysis
              + 0.2 * evaluateCitations ops ans) 1)
    ∧ calculateConfidenceProcessor ops results analysis ans
        = calculateConfidenceProcessor ops (results.filter (·.success)) analysis ans
    ∧ calculateConfidenceProcessor ops results analysis ans ≤ 1 := by
  have hff : (results.filter (·.success)).filter (·.success) = results.filter (·.success) := by
    rw [List.filter_filter]
    simp
  refine ⟨?_, ?_, ?_, ?_⟩
  · intro h
    unfold calculateConfidenceProcessor
    rw [h]
    simp
  · intro h
    unfold calculateConfidenceProcessor
    cases hc : results.filter (·.success) with
    | nil => exact absurd hc h
    | cons a l => simp
  · unfold calculateConfidenceProcessor
    rw [hff]
  · unfold calculateConfidenceProcessor
    cases hc : results.filter (·.success) with
    | nil => simp
    | cons a l =>
        simp only [List.isEmpty_cons, Bool.false_eq_true, if_false]
        exact min_le_right _ _

/-- Witness for C8 on concrete inputs: one successful result, and the
empty result list. -/
theorem c8_witness :
    calculateConfidenceProcessor trivOps [r1] anaW "ans"
        = min (0.4 * evaluateSourceQuality ([r1].filter (·.success))
            + 0.4 * evaluateContentQuality trivOps "ans" anaW
            + 0.2 * evaluateCitations trivOps "ans") 1
      ∧ calculateConfidenceProcessor trivOps [] anaW "ans" = 0 :=
  ⟨(c8_confidence_formula trivOps [r1] anaW "ans").2.1 (by decide),
   (c8_confidence_formula trivOps [] anaW "ans").1 rfl⟩

end Research
